import Mathlib

/-!
Verification of the audio-visualizer renderer (`src/canvas.js`, `src/utils.js`
and the two near-duplicate renderer variants). JavaScript numbers are modelled
as exact rationals (ℚ); the byte pixel buffers (`Uint8Array`, `Uint8ClampedArray`)
are modelled as lists of naturals together with the clamped-store conversion
that `Uint8ClampedArray` performs on assignment.
-/

namespace Viz

/-- Embedding of `utils.lerp` (src/utils.js lines 69–76): the percent argument is
clamped to [0,1] before interpolating. -/
def lerp (value1 value2 percent : ℚ) : ℚ :=
  let p := if percent < 0 then 0 else if 1 < percent then 1 else percent
  (1 - p) * value1 + p * value2

/-- Constant `KICK_BOUNCE_THRESHOLD` from src/canvas.js line 20. -/
def KICK_BOUNCE_THRESHOLD : ℚ := 220

/-- Constant `AUDIODATA_MAX_VOLUME` from src/canvas.js line 21 (note: 256, not 255). -/
def AUDIODATA_MAX_VOLUME : ℚ := 256

/-- The local `radius` used by the circular-bar pass (src/canvas.js line 64). -/
def baseRadius : ℚ := 100

/-- Average volume of the kick frequencies, src/canvas.js lines 82–86: the loop
sums `audioData[i]` for `i` from `KICK_FREQUENCY_START = 1` up to (excluding)
`KICK_FREQUENCY_END = 6` and divides by the band width 5. Reads of the
`Uint8Array` are modelled by `getD · 0` (the buffer has length 128 ≥ 6 after
setup, so the default is never taken there). -/
def kickAvgVolume (d : List ℕ) : ℚ :=
  ((List.range' 1 5).foldl (fun acc i => acc + (d.getD i 0 : ℚ)) 0) / 5

/-- The `newRadius` the bounce sub-algorithm computes, src/canvas.js lines 92–99:
above the threshold `newRadius = radius + (radius - radius * (kickAvgVolume /
AUDIODATA_MAX_VOLUME))`, otherwise `newRadius = radius`. -/
def bounceNewRadius (d : List ℕ) : ℚ :=
  if KICK_BOUNCE_THRESHOLD < kickAvgVolume d then
    baseRadius + (baseRadius - baseRadius * (kickAvgVolume d / AUDIODATA_MAX_VOLUME))
  else
    baseRadius

/-- Persistent module state of src/canvas.js (lines 14–15) that the claims
touch: `colorRotation` and `bounceLerpPercent`. -/
structure RendererState where
  colorRotation : ℚ
  bounceLerpPercent : ℚ
deriving DecidableEq

/-- Fresh module state: both variables start at 0 (src/canvas.js lines 14–15). -/
def initState : RendererState := ⟨0, 0⟩

/-- The update of the persistent `bounceLerpPercent`, src/canvas.js lines
101–104: `radiusDifference = newRadius - radius`; when the difference is nonzero
the module variable is overwritten with `radiusDifference / radius`, otherwise
it is left alone. -/
def bounceUpdatePercent (d : List ℕ) (s : RendererState) : RendererState :=
  let radiusDifference := bounceNewRadius d - baseRadius
  if radiusDifference ≠ 0 then
    { s with bounceLerpPercent := radiusDifference / baseRadius }
  else
    s

/-- The bounce-modulated radius for one frame, src/canvas.js line 107:
`radius = utils.lerp(newRadius, radius, bounceLerpPercent)` using the value of
`bounceLerpPercent` after the update of lines 101–104. -/
def bounceRadius (d : List ℕ) (s : RendererState) : ℚ :=
  lerp (bounceNewRadius d) baseRadius (bounceUpdatePercent d s).bounceLerpPercent

/-- The boolean effect toggles read by `draw` in src/canvas.js. -/
structure Params where
  showGradient : Bool
  showBarCircle : Bool
  showBounce : Bool
  showBars : Bool
  showWaveform : Bool
  showCircles : Bool
  showDate : Bool
  showPixels : Bool
  showConfetti : Bool
  showEmboss : Bool
  showNoise : Bool
  showInvert : Bool
deriving DecidableEq

/-- All effect flags false (the default when the caller passes `{}`). -/
def noParams : Params :=
  ⟨false, false, false, false, false, false, false, false, false, false, false, false⟩

/-- Flags of the C5 scenario: circular bars with bounce enabled. -/
def bounceParams : Params := { noParams with showBarCircle := true, showBounce := true }

/-- The effect of one `draw` call (src/canvas.js lines 38–348) on the persistent
module state: `bounceLerpPercent` is only touched inside the
`showBarCircle`/`showBounce` branch (lines 62, 76, 101–104), and
`colorRotation += .001` runs unconditionally at the end (line 346). -/
def drawStateStep (p : Params) (d : List ℕ) (s : RendererState) : RendererState :=
  let s1 := if p.showBarCircle && p.showBounce then bounceUpdatePercent d s else s
  { s1 with colorRotation := s1.colorRotation + 1 / 1000 }

/-- Folding `draw` over a list of frames (params and magnitude buffer per frame). -/
def runFrames (frames : List (Params × List ℕ)) (s : RendererState) : RendererState :=
  frames.foldl (fun st f => drawStateStep f.1 f.2 st) s

/-- The per-frame bounce radii produced along a sequence of frames rendered with
`showBarCircle` and `showBounce` on, threading the persistent state. -/
def radiusTrace : List (List ℕ) → RendererState → List ℚ
  | [], _ => []
  | d :: rest, s => bounceRadius d s :: radiusTrace rest (drawStateStep bounceParams d s)

/-- Kick average of the second renderer variant (src/unnamed/part_001 lines
78–82): indices 0 to 4, divided by `KICK_FREQUENCY_INDECIES = 5`. -/
def kickAvgVolume1 (d : List ℕ) : ℚ :=
  ((List.range' 0 5).foldl (fun acc i => acc + (d.getD i 0 : ℚ)) 0) / 5

/-- Persistent state of the second renderer variant (src/unnamed/part_001 lines
15–16): `bounceLerpPercent` and `isBouncing`. -/
structure RendererState1 where
  bounceLerpPercent : ℚ
  isBouncing : Bool
deriving DecidableEq

/-- One frame of the ratchet bounce variant (src/unnamed/part_001 lines 73–120):
threshold 230, `newRadius` from the same formula with denominator 256, then
`isBouncing = !(newRadius == radius)`; when bouncing, `bounceLerpPercent`
ratchets up by .05 until saturating at 1 (where it resets to −.05 and bouncing
stops), otherwise it decays by .05 while positive; finally
`radius = lerp(newRadius, radius, bounceLerpPercent)`. Returns the new state
and the modulated radius. -/
def bounceStep1 (d : List ℕ) (s : RendererState1) : RendererState1 × ℚ :=
  let radius : ℚ := 100
  let kickAvg := kickAvgVolume1 d
  let newRadius := if 230 < kickAvg then radius + (radius - radius * (kickAvg / 256)) else radius
  let bouncing := !(newRadius == radius)
  if bouncing then
    if !(1 ≤ s.bounceLerpPercent : Bool) then
      ({ bounceLerpPercent := s.bounceLerpPercent + 5 / 100, isBouncing := true },
        lerp newRadius radius (s.bounceLerpPercent + 5 / 100))
    else
      ({ bounceLerpPercent := -(5 / 100), isBouncing := false },
        lerp newRadius radius (-(5 / 100)))
  else
    let p := if 0 < s.bounceLerpPercent then s.bounceLerpPercent - 5 / 100 else s.bounceLerpPercent
    ({ bounceLerpPercent := p, isBouncing := false }, lerp newRadius radius p)

/-- Per-frame bounce radii of the second variant along a sequence of frames. -/
def radiusTrace1 : List (List ℕ) → RendererState1 → List ℚ
  | [], _ => []
  | d :: rest, s => (bounceStep1 d s).2 :: radiusTrace1 rest (bounceStep1 d s).1

theorem bounceUpdatePercent_colorRotation (d : List ℕ) (s : RendererState) :
    (bounceUpdatePercent d s).colorRotation = s.colorRotation := by
  simp only [bounceUpdatePercent]
  split <;> rfl

theorem drawStateStep_colorRotation (p : Params) (d : List ℕ) (s : RendererState) :
    (drawStateStep p d s).colorRotation = s.colorRotation + 1 / 1000 := by
  simp only [drawStateStep]
  split <;> simp [bounceUpdatePercent_colorRotation]

theorem runFrames_colorRotation (frames : List (Params × List ℕ)) :
    ∀ s, (runFrames frames s).colorRotation = s.colorRotation + frames.length * (1 / 1000) := by
  induction frames with
  | nil => intro s; simp [runFrames]
  | cons f rest ih =>
    intro s
    have h1 : runFrames (f :: rest) s = runFrames rest (drawStateStep f.1 f.2 s) := rfl
    rw [h1, ih, drawStateStep_colorRotation]
    simp only [List.length_cons]
    push_cast
    ring

theorem lerp_self (v p : ℚ) : lerp v v p = v := by
  rw [lerp]
  ring

theorem bounceRadius_silent (d : List ℕ) (s : RendererState)
    (h : kickAvgVolume d ≤ KICK_BOUNCE_THRESHOLD) : bounceRadius d s = baseRadius := by
  have hnew : bounceNewRadius d = baseRadius := by
    simp only [bounceNewRadius, if_neg (not_lt.mpr h)]
  rw [bounceRadius, hnew, lerp_self]

theorem getD_replicate_zero (n i : ℕ) : (List.replicate n (0 : ℕ)).getD i 0 = 0 := by
  rw [List.getD_eq_getElem?_getD, List.getElem?_replicate]
  split <;> rfl

theorem kickAvg_zero (n : ℕ) : kickAvgVolume (List.replicate n 0) = 0 := by
  simp [kickAvgVolume, List.range', getD_replicate_zero]

theorem kickAvg1_zero (n : ℕ) : kickAvgVolume1 (List.replicate n 0) = 0 := by
  simp [kickAvgVolume1, List.range', getD_replicate_zero]

theorem silent_frames_le :
    ∀ d ∈ [List.replicate 6 (0 : ℕ), List.replicate 128 0],
      kickAvgVolume d ≤ KICK_BOUNCE_THRESHOLD := by
  intro d hd
  have h : d = List.replicate 6 0 ∨ d = List.replicate 128 0 := by simpa using hd
  rcases h with rfl | rfl <;> rw [kickAvg_zero] <;> norm_num [KICK_BOUNCE_THRESHOLD]

theorem silent_frames_le1 :
    ∀ d ∈ [List.replicate 6 (0 : ℕ), List.replicate 128 0],
      kickAvgVolume1 d ≤ 230 := by
  intro d hd
  have h : d = List.replicate 6 0 ∨ d = List.replicate 128 0 := by simpa using hd
  rcases h with rfl | rfl <;> rw [kickAvg1_zero] <;> norm_num

theorem bounceStep1_silent (d : List ℕ) (s : RendererState1)
    (h : kickAvgVolume1 d ≤ 230) : (bounceStep1 d s).2 = 100 := by
  simp only [bounceStep1, if_neg (not_lt.mpr h)]
  simp [lerp_self]

/-- C5: for every sequence of frames whose kick average stays at or below the
bounce threshold, and for ANY persisted renderer state (so no drift can come
from a stale `bounceLerpPercent`), the bounce-modulated radius is exactly the
base radius 100 on every frame. Proved for both renderer variants: the
direct-ratio variant (src/canvas.js) and the ±.05 ratchet variant
(src/unnamed/part_001, threshold 230). In both, the lerp between the two equal
endpoints `newRadius = radius` returns the base radius whatever the persisted
interpolation percent is. -/
theorem silent_bounce_radius :
    (∀ (frames : List (List ℕ)) (s : RendererState),
      (∀ d ∈ frames, kickAvgVolume d ≤ KICK_BOUNCE_THRESHOLD) →
      radiusTrace frames s = List.replicate frames.length baseRadius) ∧
    (∀ (frames : List (List ℕ)) (s : RendererState1),
      (∀ d ∈ frames, kickAvgVolume1 d ≤ 230) →
      radiusTrace1 frames s = List.replicate frames.length 100) := by
  constructor
  · intro frames
    induction frames with
    | nil => intro s _; rfl
    | cons d rest ih =>
      intro s h
      have hd := h d (List.mem_cons_self d rest)
      have hr : ∀ d' ∈ rest, kickAvgVolume d' ≤ KICK_BOUNCE_THRESHOLD :=
        fun d' hm => h d' (List.mem_cons_of_mem d hm)
      simp only [radiusTrace, List.length_cons, List.replicate_succ]
      rw [bounceRadius_silent d s hd, ih _ hr]
  · intro frames
    induction frames with
    | nil => intro s _; rfl
    | cons d rest ih =>
      intro s h
      have hd := h d (List.mem_cons_self d rest)
      have hr : ∀ d' ∈ rest, kickAvgVolume1 d' ≤ 230 :=
        fun d' hm => h d' (List.mem_cons_of_mem d hm)
      simp only [radiusTrace1, List.length_cons, List.replicate_succ]
      rw [bounceStep1_silent d s hd, ih _ hr]

/-- C5 witness: two silent frames (all-zero buffers), starting from a renderer
state with a stale nonzero `bounceLerpPercent`, yield radius 100 on both frames
in both variants. -/
theorem silent_bounce_radius_witness :
    (∀ d ∈ [List.replicate 6 0, List.replicate 128 0],
        kickAvgVolume d ≤ KICK_BOUNCE_THRESHOLD) ∧
    radiusTrace [List.replicate 6 0, List.replicate 128 0] ⟨0, 37⟩ =
      List.replicate 2 baseRadius ∧
    radiusTrace1 [List.replicate 6 0, List.replicate 128 0] ⟨37, true⟩ =
      List.replicate 2 100 :=
  ⟨silent_frames_le, silent_bounce_radius.1 _ ⟨0, 37⟩ silent_frames_le,
    silent_bounce_radius.2 _ ⟨37, true⟩ silent_frames_le1⟩

/-- C6: starting from a freshly set-up renderer, after N `draw` calls with any
parameter combinations and any magnitude buffers, `colorRotation` equals
N × 0.001 (unbounded, no wrapping); the increment happens unconditionally on
every frame; and with all flags false the colorRotation increment is the only
change to the persistent state. -/
theorem colorRotation_linear_growth :
    (∀ frames : List (Params × List ℕ),
      (runFrames frames initState).colorRotation = frames.length * (1 / 1000)) ∧
    (∀ (p : Params) (d : List ℕ) (s : RendererState),
      (drawStateStep p d s).colorRotation = s.colorRotation + 1 / 1000) ∧
    (∀ (d : List ℕ) (s : RendererState),
      drawStateStep noParams d s = { s with colorRotation := s.colorRotation + 1 / 1000 }) := by
  refine ⟨fun frames => ?_, drawStateStep_colorRotation, fun d s => ?_⟩
  · rw [runFrames_colorRotation frames initState]
    simp [initState]
  · simp [drawStateStep, noParams]

/-- The MagnitudeBuffer of the C1 scenario: kick band saturated, rest silent
(buffer length 128 = fftSize 256 / 2). -/
def c1Buf : List ℕ := [255, 255, 255, 255, 255, 255] ++ List.replicate 122 0

theorem kickAvg_c1Buf : kickAvgVolume c1Buf = 255 := by
  norm_num [kickAvgVolume, c1Buf, List.range']

/-- C1, counterexample: on the buffer [255,255,255,255,255,255,0,…] the code's
kick average is 255 and exceeds the threshold 220, but the computed target
radius is NOT 2 × baseRadius: the code divides by `AUDIODATA_MAX_VOLUME = 256`
(not 255), giving 100 + 100·(1/256) rather than 200. -/
theorem c1_counterexample :
    kickAvgVolume c1Buf = 255 ∧ KICK_BOUNCE_THRESHOLD < kickAvgVolume c1Buf ∧
      bounceNewRadius c1Buf ≠ 2 * baseRadius := by
  refine ⟨kickAvg_c1Buf, ?_, ?_⟩
  · rw [kickAvg_c1Buf]; norm_num [KICK_BOUNCE_THRESHOLD]
  · simp only [bounceNewRadius, kickAvg_c1Buf]
    norm_num [KICK_BOUNCE_THRESHOLD, AUDIODATA_MAX_VOLUME, baseRadius]

/-- C1, amended: for the saturated-kick buffer the sub-algorithm computes
kickAvg = 255 > 220 and a target radius of baseRadius + baseRadius·(1/256)
= 6425/64 ≈ 100.39 (the denominator in the code is 256, so a fully saturated
kick produces an expansion of base/256, not a doubling). -/
theorem c1_amended :
    kickAvgVolume c1Buf = 255 ∧ KICK_BOUNCE_THRESHOLD < kickAvgVolume c1Buf ∧
      bounceNewRadius c1Buf = baseRadius + baseRadius * (1 / 256) ∧
      bounceNewRadius c1Buf = 6425 / 64 := by
  refine ⟨kickAvg_c1Buf, ?_, ?_, ?_⟩ <;>
    simp only [bounceNewRadius, kickAvg_c1Buf] <;>
    norm_num [KICK_BOUNCE_THRESHOLD, AUDIODATA_MAX_VOLUME, baseRadius, kickAvg_c1Buf]

/-- C10: `utils.lerp` clamps its percent argument to [0,1], so its result always
lies in the closed interval between its two endpoint arguments; consequently the
bounce-modulated radius of the circular-bar pass lies between `baseRadius` and
the computed target radius `bounceNewRadius`, for every magnitude buffer and
every persisted renderer state. -/
theorem lerp_bounded :
    (∀ v1 v2 p : ℚ, min v1 v2 ≤ lerp v1 v2 p ∧ lerp v1 v2 p ≤ max v1 v2) ∧
    (∀ (d : List ℕ) (s : RendererState),
      min baseRadius (bounceNewRadius d) ≤ bounceRadius d s ∧
      bounceRadius d s ≤ max baseRadius (bounceNewRadius d)) := by
  have key : ∀ v1 v2 p : ℚ, min v1 v2 ≤ lerp v1 v2 p ∧ lerp v1 v2 p ≤ max v1 v2 := by
    intro v1 v2 p
    rw [lerp]
    have hp : (0 : ℚ) ≤ (if p < 0 then 0 else if 1 < p then 1 else p) ∧
        (if p < 0 then 0 else if 1 < p then 1 else p) ≤ 1 := by
      split
      · norm_num
      · split
        · norm_num
        · constructor <;> linarith [not_lt.mp (by assumption : ¬ p < 0),
            not_lt.mp (by assumption : ¬ 1 < p)]
    set q := (if p < 0 then 0 else if 1 < p then 1 else p) with hq
    rcases le_total v1 v2 with h | h
    · rw [min_eq_left h, max_eq_right h]
      constructor <;> nlinarith [hp.1, hp.2]
    · rw [min_eq_right h, max_eq_left h]
      constructor <;> nlinarith [hp.1, hp.2]
  refine ⟨key, fun d s => ?_⟩
  have h := key (bounceNewRadius d) baseRadius (bounceUpdatePercent d s).bounceLerpPercent
  rw [bounceRadius]
  constructor
  · calc min baseRadius (bounceNewRadius d)
        = min (bounceNewRadius d) baseRadius := min_comm _ _
      _ ≤ _ := h.1
  · calc lerp (bounceNewRadius d) baseRadius (bounceUpdatePercent d s).bounceLerpPercent
        ≤ max (bounceNewRadius d) baseRadius := h.2
      _ = max baseRadius (bounceNewRadius d) := max_comm _ _

/-- Conversion a canvas `Uint8ClampedArray` applies on assignment: round to the
nearest integer (ties to even, per the WebIDL clamped conversion). -/
def roundHalfEven (q : ℚ) : ℤ :=
  let f := ⌊q⌋
  let r := q - f
  if r < 1 / 2 then f
  else if 1 / 2 < r then f + 1
  else if f % 2 = 0 then f else f + 1

/-- Store of a rational arithmetic result into a `Uint8ClampedArray` slot:
round to nearest (ties to even) and clamp into [0, 255]. -/
def clampByteQ (q : ℚ) : ℕ := (max 0 (min 255 (roundHalfEven q))).toNat

/-- Store of an integer arithmetic result into a `Uint8ClampedArray` slot. -/
def clampByteZ (z : ℤ) : ℕ := (max 0 (min 255 z)).toNat

theorem floor_le_roundHalfEven (q : ℚ) : ⌊q⌋ ≤ roundHalfEven q := by
  rw [roundHalfEven]
  split
  · exact le_refl _
  · split
    · omega
    · split <;> omega

theorem clampByteQ_of_ge (q : ℚ) (h : (255 : ℚ) ≤ q) : clampByteQ q = 255 := by
  have h1 : (255 : ℤ) ≤ ⌊q⌋ := by
    rw [Int.le_floor]
    exact_mod_cast h
  have h2 : (255 : ℤ) ≤ roundHalfEven q := le_trans h1 (floor_le_roundHalfEven q)
  rw [clampByteQ, min_eq_left h2]
  rfl

theorem clampByteQ_le (q : ℚ) : clampByteQ q ≤ 255 := by
  rw [clampByteQ]
  omega

/-- The sepia luminance base, src/unnamed/part_000 line 424:
`0.3*red + 0.59*green + 0.11*blue`. -/
def sepiaBase (red green blue : ℚ) : ℚ :=
  3 / 10 * red + 59 / 100 * green + 11 / 100 * blue

/-- Stored sepia red channel, src/unnamed/part_000 line 425: `sepia + 75`
assigned into `imageData.data`, a `Uint8ClampedArray` (clamped byte store). -/
def sepiaR (red green blue : ℚ) : ℕ := clampByteQ (sepiaBase red green blue + 75)

/-- Stored sepia green channel, src/unnamed/part_000 line 426: `sepia + 50`. -/
def sepiaG (red green blue : ℚ) : ℕ := clampByteQ (sepiaBase red green blue + 50)

/-- Stored sepia blue channel, src/unnamed/part_000 line 427: `sepia + 25`. -/
def sepiaB (red green blue : ℚ) : ℕ := clampByteQ (sepiaBase red green blue + 25)

/-- C2, counterexample: for input R=G=B=200 the sepia base is exactly 200 and the
red arithmetic result is 275, but the stored byte is 255 (the `Uint8ClampedArray`
saturates), not 275 mod 256 = 19 as the claim's byte-wrap rule predicts. -/
theorem sepia_not_wrapped :
    sepiaR 200 200 200 = 255 ∧ (275 : ℕ) % 256 = 19 ∧ sepiaR 200 200 200 ≠ 275 % 256 := by
  have hbase : sepiaBase 200 200 200 + 75 = 275 := by norm_num [sepiaBase]
  have h : sepiaR 200 200 200 = 255 := by
    rw [sepiaR, hbase, clampByteQ_of_ge] <;> norm_num
  refine ⟨h, by norm_num, ?_⟩
  rw [h]
  norm_num

/-- C2, amended: the sepia pass stores `0.3R+0.59G+0.11B+75` (and base+50,
base+25) through the clamped byte conversion of `Uint8ClampedArray`: whenever
the arithmetic result reaches 255 the stored byte saturates at exactly 255
(never a mod-256 wrap), and every stored sepia byte is at most 255. -/
theorem sepia_clamped (r g b : ℚ) (h : (255 : ℚ) ≤ sepiaBase r g b + 75) :
    sepiaR r g b = 255 ∧
    (∀ x y z : ℚ, sepiaR x y z ≤ 255 ∧ sepiaG x y z ≤ 255 ∧ sepiaB x y z ≤ 255) :=
  ⟨clampByteQ_of_ge _ h,
    fun _ _ _ => ⟨clampByteQ_le _, clampByteQ_le _, clampByteQ_le _⟩⟩

/-- C2 witness: the amended claim at the concrete pixel (200,200,200). -/
theorem sepia_clamped_witness :
    (255 : ℚ) ≤ sepiaBase 200 200 200 + 75 ∧ sepiaR 200 200 200 = 255 :=
  ⟨by norm_num [sepiaBase], (sepia_clamped 200 200 200 (by norm_num [sepiaBase])).1⟩

/-- Slice of the 2D-context state relevant to the background pass. JavaScript
object assignment to a nonexistent property name creates that property instead
of failing, so the misspelled assignment `ctx.globalAplha = .1` in the source
lands in a stray `globalAplha` slot while the real `globalAlpha` (the value the
canvas actually composites with, 1.0 by default and never assigned anywhere in
this repository) is left unchanged. -/
structure Ctx2D where
  globalAlpha : ℚ
  globalAplha : Option ℚ
deriving DecidableEq

/-- Context as the renderer finds it: default alpha 1, no stray property yet. -/
def initCtx : Ctx2D := ⟨1, none⟩

/-- Source-over compositing of one fill-color channel over a destination
channel at the context's current global alpha. -/
def compositeFill (alpha src dst : ℚ) : ℚ := alpha * src + (1 - alpha) * dst

/-- The unconditional background pass, src/canvas.js lines 46–50: set fillStyle
to black (channel value 0), assign 0.1 to the misspelled `globalAplha` property,
and fill the whole surface; the fill composites with the context's real
`globalAlpha`. Returns the resulting value of one color channel of one pixel. -/
def backgroundPass (ctx : Ctx2D) (dst : ℚ) : ℚ :=
  let ctx2 : Ctx2D := { ctx with globalAplha := some (1 / 10) }
  compositeFill ctx2.globalAlpha 0 dst

/-- C3: because the source assigns the fade alpha to the misspelled property
`globalAplha`, the real global alpha stays 1 and the background pass overwrites
every channel with opaque black (0) — it is NOT the faded previous frame
0.9 × previous that a 0.1-alpha black fill would leave. Evaluated at a previous
channel value of 200: the code yields 0, a low-alpha fade would yield 180. -/
theorem background_opaque_black :
    (∀ dst : ℚ, backgroundPass initCtx dst = 0) ∧
    backgroundPass initCtx 200 = 0 ∧
    backgroundPass initCtx 200 ≠ (1 - 1 / 10) * 200 := by
  have h : ∀ dst : ℚ, backgroundPass initCtx dst = 0 := by
    intro dst
    simp [backgroundPass, compositeFill, initCtx]
  refine ⟨h, h 200, ?_⟩
  rw [h 200]
  norm_num

/-- The quotient `audio.element.currentTime / audio.element.duration` of the
progress pass, src/unnamed/part_000 line 311. The duration is `none` when the
media element has no loaded source (JS `NaN`); a zero or absent duration makes
the JS quotient non-finite (NaN or ±∞), modelled as `none`. No guard exists in
the source. -/
def progressFraction (currentTime : ℚ) (duration : Option ℚ) : Option ℚ :=
  match duration with
  | none => none
  | some dv => if dv = 0 then none else some (currentTime / dv)

/-- Whether the `arc` call of src/unnamed/part_000 line 312 draws anything: the
canvas `arc` primitive silently returns without drawing when handed a non-finite
angle, and the angle is `2π × progressFraction + colorRotation − π/2`, finite
exactly when the fraction is. -/
def progressArcDrawn (currentTime : ℚ) (duration : Option ℚ) : Bool :=
  (progressFraction currentTime duration).isSome

/-- C4, counterexample: with duration 0 (or undefined) the code's quotient is
non-finite (`none`), not the substituted 0 the claim describes. -/
theorem progress_no_guard :
    progressFraction 0 (some 0) ≠ some 0 ∧
    progressFraction 7 (some 0) ≠ some 0 ∧
    progressFraction 7 none ≠ some 0 := by
  refine ⟨?_, ?_, ?_⟩ <;> simp [progressFraction]

/-- C4, amended: the progress pass divides without any guard. When the duration
is zero or undefined the quotient is non-finite (`none`) and the `arc` primitive
ignores the call, so nothing is drawn (no fault propagates, but no zero-extent
arc is drawn either); when the duration is nonzero the quotient is the plain
ratio `currentTime / duration`. -/
theorem progress_unguarded_quotient (t : ℚ) :
    progressFraction t (some 0) = none ∧
    progressFraction t none = none ∧
    progressArcDrawn t (some 0) = false ∧
    (∀ dv : ℚ, dv ≠ 0 → progressFraction t (some dv) = some (t / dv)) := by
  refine ⟨by simp [progressFraction], rfl, by simp [progressArcDrawn, progressFraction], ?_⟩
  intro dv hdv
  simp [progressFraction, hdv]

/-- C4 witness: the amended claim at currentTime 7 with duration 2 and with
duration 0. -/
theorem progress_unguarded_quotient_witness :
    progressFraction 7 (some 2) = some (7 / 2) ∧ progressFraction 7 (some 0) = none :=
  ⟨(progress_unguarded_quotient 7).2.2.2 2 (by norm_num), (progress_unguarded_quotient 7).1⟩

/-- Radial bar length drawn by the circular-bar pass, src/canvas.js lines 111
and 119: `percent = audioData[i] / 256` and the rect height is
`barHeight * percent` with `barHeight = 75`. -/
def barCircleBarHeight (d : List ℕ) (i : ℕ) : ℚ := 75 * ((d.getD i 0 : ℚ) / 256)

/-- Circle radius drawn by the concentric-circles pass, src/canvas.js lines 192
and 195: `percent = audioData[i] / 255`, `circleRadius = percent * maxRadius`
with `maxRadius = 100`. -/
def circleRadius (d : List ℕ) (i : ℕ) : ℚ := ((d.getD i 0 : ℚ) / 255) * 100

/-- Top y-coordinate of bar i in the linear-bar pass, src/canvas.js line 143:
`256 - audioData[i]`; the rect's width and height are magnitude-independent, so
the magnitude only pushes the bar up from its lowest position y = 256. -/
def barsY (d : List ℕ) (i : ℕ) : ℚ := 256 - (d.getD i 0 : ℚ)

/-- C7: for an all-zero MagnitudeBuffer every magnitude-scaled geometric
quantity degenerates to its minimum-size form — circular-bar sector heights 0,
concentric-circle radii 0, and the linear bars at their lowest position
(y = 256, the maximum of `256 − magnitude`, hence the minimal visible bar) —
while each quantity is a total function, so every enabled pass still executes. -/
theorem all_zero_degenerate :
    ∀ n i j k : ℕ,
      barCircleBarHeight (List.replicate n 0) i = 0 ∧
      circleRadius (List.replicate n 0) j = 0 ∧
      barsY (List.replicate n 0) k = 256 ∧
      (∀ (d : List ℕ) (l : ℕ), barsY d l ≤ 256) := by
  intro n i j k
  refine ⟨?_, ?_, ?_, ?_⟩
  · simp [barCircleBarHeight, getD_replicate_zero]
  · simp [circleRadius, getD_replicate_zero]
  · simp [barsY, getD_replicate_zero]
  · intro d l
    rw [barsY]
    have : (0 : ℚ) ≤ (d.getD l 0 : ℚ) := by positivity
    linarith

/-- The invert pixel pass, src/canvas.js lines 318 and 332–337: stepping through
the buffer in RGBA groups of four, each of R, G, B is replaced by
`255 − channel` and the alpha byte is left untouched. (`ImageData` buffers
always have a length divisible by four; a shorter tail is left as is.) -/
def invertPass : List ℕ → List ℕ
  | r :: g :: b :: a :: rest => (255 - r) :: (255 - g) :: (255 - b) :: a :: invertPass rest
  | other => other

/-- C8: applying the showInvert transform twice restores the original buffer
(every channel byte x ≤ 255 satisfies 255 − (255 − x) = x), and alpha bytes
(positions ≡ 3 mod 4) are never touched by a single application. -/
theorem invert_involutive :
    ∀ d : List ℕ, (∀ x ∈ d, x ≤ 255) →
      invertPass (invertPass d) = d ∧
      (∀ i : ℕ, i % 4 = 3 → (invertPass d).getD i 0 = d.getD i 0) := by
  intro d
  induction d using invertPass.induct with
  | case1 r g b a rest ih =>
    intro h
    have hr : r ≤ 255 := h r (by simp)
    have hg : g ≤ 255 := h g (by simp)
    have hb : b ≤ 255 := h b (by simp)
    have hrest : ∀ x ∈ rest, x ≤ 255 := fun x hx => h x (by simp [hx])
    obtain ⟨ih1, ih2⟩ := ih hrest
    constructor
    · simp only [invertPass, ih1]
      congr 1 <;> try omega
      congr 1 <;> try omega
      congr 1 <;> omega
    · intro i hi
      match i, hi with
      | 3, _ => rfl
      | (n + 4), hi =>
        have hn : n % 4 = 3 := by omega
        simp only [invertPass, List.getD_cons_succ]
        exact ih2 n hn
  | case2 other hother =>
    intro _
    have : invertPass other = other := by
      rw [invertPass.eq_def]
      split
      · exact absurd rfl (hother _ _ _ _ _)
      · rfl
    rw [this]
    exact ⟨this, fun i _ => rfl⟩

/-- C8 witness: a concrete two-pixel buffer round-trips and keeps its alpha. -/
theorem invert_involutive_witness :
    invertPass (invertPass [10, 20, 30, 40, 50, 60, 70, 80]) =
      [10, 20, 30, 40, 50, 60, 70, 80] ∧
    (invertPass [10, 20, 30, 40, 50, 60, 70, 80]).getD 7 0 =
      ([10, 20, 30, 40, 50, 60, 70, 80] : List ℕ).getD 7 0 :=
  ⟨(invert_involutive [10, 20, 30, 40, 50, 60, 70, 80] (by decide)).1,
    (invert_involutive [10, 20, 30, 40, 50, 60, 70, 80] (by decide)).2 7 (by decide)⟩

/-- One emboss store, src/canvas.js line 314: `127 + 2*data[i] - data[i+4] -
data[i + width*4]` assigned into the clamped byte array. A `none` operand models
an out-of-bounds read (`undefined` in JS): the arithmetic then yields NaN, which
the clamped byte store converts to 0. -/
def embossByte (self n1 n2 : Option ℕ) : ℕ :=
  match self, n1, n2 with
  | some x, some a, some b => clampByteZ (127 + 2 * (x : ℤ) - a - b)
  | _, _, _ => 0

/-- The in-place emboss loop, src/canvas.js lines 312–315: for each index of the
given list in order, skip alpha positions (i % 4 == 3), otherwise overwrite
position i of the CURRENT buffer using reads of the CURRENT buffer at i, i+4 and
i+width·4. -/
def embossLoop (w : ℕ) : List ℕ → List ℕ → List ℕ
  | c, [] => c
  | c, i :: is =>
    embossLoop w
      (if i % 4 = 3 then c
       else c.set i (embossByte (getElem? c i) (getElem? c (i + 4)) (getElem? c (i + w * 4)))) is

/-- The emboss pass as the source runs it: in place over indices 0, 1, …,
length − 1 of the pixel buffer. -/
def embossInPlace (w : ℕ) (d : List ℕ) : List ℕ := embossLoop w d (List.range d.length)

/-- Two-buffer loop for the refinement side of C9: identical index walk and
stores, but every read comes from the untouched pre-pass snapshot `orig`. -/
def embossSnapshotLoop (w : ℕ) (orig : List ℕ) : List ℕ → List ℕ → List ℕ
  | c, [] => c
  | c, i :: is =>
    embossSnapshotLoop w orig
      (if i % 4 = 3 then c
       else c.set i (embossByte (getElem? orig i) (getElem? orig (i + 4)) (getElem? orig (i + w * 4)))) is

/-- The two-buffer emboss pass of C9: every output byte is computed purely from a
snapshot of the pre-pass buffer. -/
def embossTwoBuffer (w : ℕ) (d : List ℕ) : List ℕ :=
  embossSnapshotLoop w d d (List.range d.length)

theorem embossLoop_eq_snapshot (w : ℕ) (orig : List ℕ) :
    ∀ (n k : ℕ) (c : List ℕ), (∀ j, k ≤ j → getElem? c j = getElem? orig j) →
      embossLoop w c (List.range' k n) = embossSnapshotLoop w orig c (List.range' k n) := by
  intro n
  induction n with
  | zero => intro k c _; rfl
  | succ m ih =>
    intro k c h
    rw [List.range'_succ]
    by_cases hk : k % 4 = 3
    · simp only [embossLoop, embossSnapshotLoop, if_pos hk]
      exact ih (k + 1) c (fun j hj => h j (by omega))
    · simp only [embossLoop, embossSnapshotLoop, if_neg hk]
      have e1 : getElem? c k = getElem? orig k := h k le_rfl
      have e2 : getElem? c (k + 4) = getElem? orig (k + 4) := h _ (by omega)
      have e3 : getElem? c (k + w * 4) = getElem? orig (k + w * 4) := h _ (by omega)
      rw [e1, e2, e3]
      apply ih (k + 1)
      intro j hj
      rw [List.getElem?_set_ne (by omega)]
      exact h j (by omega)

/-- C9: the in-place emboss pass coincides with the two-buffer version computed
from a snapshot of the pre-pass pixel buffer, for every buffer and every width:
the ascending loop writes only index i and reads indices i, i+4 and i+width·4,
none of which has been overwritten yet, so every output byte is a function of
original buffer values only. -/
theorem emboss_inplace_eq_twobuffer (w : ℕ) (d : List ℕ) :
    embossInPlace w d = embossTwoBuffer w d := by
  rw [embossInPlace, embossTwoBuffer, List.range_eq_range']
  exact embossLoop_eq_snapshot w d d.length 0 d (fun j _ => rfl)

end Viz
